import Mathlib

/-!
Verification of `market-sentiment-check.py`: a shallow embedding of the
script's pure logic in Lean 4.

Modelling conventions:
* Python strings are Lean `String`s; string routines (`strip`, `split`,
  `lower`, `rstrip`, `capitalize`) are re-implemented for the ASCII inputs
  the script works with.
* Python exceptions are modelled by `Option` (`none` = the call raised).
* The CSV table is a `List (List String)` of rows; reading and writing the
  file is modelled by passing the row list in and out.
* External collaborators (HTTP fetch, BeautifulSoup parsing, LLM call,
  Pushover POST, MD5) are modelled by their observable results, supplied
  in an environment: the fetched page is given as its text nodes and its
  paragraph texts in document order, the LLM call as either the returned
  text or a failure, the POST as either a response status code or a raised
  transport error, and MD5 as an arbitrary function parameter.
-/

namespace MarketSentiment

/-! ## Python string primitives -/

/-- Characters Python's `str.strip()` removes (ASCII whitespace). -/
def isPyWhitespace (c : Char) : Bool :=
  c = ' ' || c = '\t' || c = '\n' || c = '\r' || c = '\x0b' || c = '\x0c'

/-- Python `s.strip()`. -/
def pyStrip (s : String) : String :=
  String.mk (((s.toList.dropWhile isPyWhitespace).reverse.dropWhile isPyWhitespace).reverse)

/-- Helper for `pySplit`: accumulates the current word (reversed). -/
def pySplitAux : List Char → List Char → List String
  | [], acc => if acc.isEmpty then [] else [String.mk acc.reverse]
  | c :: cs, acc =>
    if isPyWhitespace c then
      if acc.isEmpty then pySplitAux cs [] else String.mk acc.reverse :: pySplitAux cs []
    else pySplitAux cs (c :: acc)

/-- Python `s.split()`: split on whitespace runs, dropping empty pieces. -/
def pySplit (s : String) : List String :=
  pySplitAux s.toList []

/-- Python `s.lower()` (ASCII). -/
def pyLower (s : String) : String :=
  String.mk (s.toList.map Char.toLower)

/-- Python `s.rstrip(".")`: remove all trailing dots. -/
def pyRstripDot (s : String) : String :=
  String.mk ((s.toList.reverse.dropWhile (fun c => c = '.')).reverse)

/-- Python `s.capitalize()`: first character upper-cased, the rest lower-cased. -/
def pyCapitalize (s : String) : String :=
  match s.toList with
  | [] => ""
  | c :: cs => String.mk (c.toUpper :: cs.map Char.toLower)

/-! ## Sentiment normalizer (`clean_sentiment`)

Python source:
```
def clean_sentiment(raw):
    first_word = raw.strip().split()[0].lower().rstrip(".")
    return first_word.capitalize() if first_word in {"bullish", "bearish", "mixed"} else "Undetermined"
```
`raw.strip().split()` is `[]` when `raw` is empty or whitespace-only, so the
subscript `[0]` raises `IndexError` there; `none` models that exception. -/

def clean_sentiment (raw : String) : Option String :=
  match pySplit (pyStrip raw) with
  | [] => none
  | w :: _ =>
    let first_word := pyRstripDot (pyLower w)
    some (if first_word = "bullish" ∨ first_word = "bearish" ∨ first_word = "mixed" then
            pyCapitalize first_word
          else "Undetermined")

/-! ## Dated record store (`write_log_csv`) -/

/-- One CSV row. -/
abbrev Row := List String

/-- The whole CSV table, header row included, in file order. -/
abbrev Table := List Row

/-- The header row the script creates for a previously empty table. -/
def csvHeader : Row :=
  ["today_date", "raw_publish_date", "sentiment", "model", "model_version",
   "article_hash", "raw_response"]

/-- The scan-and-replace loop of `write_log_csv`: find the first row `row`
with `row and row[0] == today` and replace it by `logRow`; `none` when no
row matches (the loop ends with `updated == False`). -/
def replaceFirstRow (today : String) (logRow : Row) : Table → Option Table
  | [] => none
  | row :: rest =>
    if row.head? = some today then some (logRow :: rest)
    else (replaceFirstRow today logRow rest).map (fun rs => row :: rs)

/-- The insert-or-replace step of `write_log_csv` on an in-memory table. -/
def upsertRow (today : String) (logRow : Row) (rows : Table) : Table :=
  match replaceFirstRow today logRow rows with
  | some updated => updated
  | none => if rows = [] then [csvHeader, logRow] else rows ++ [logRow]

/-- Python `write_log_csv(today, raw_publish, sentiment, model_used,
model_version, article_hash, raw_response)`: the file contents before the
call come in as `rows`, the contents written back are the result. -/
def write_log_csv (today raw_publish sentiment model_used model_version
    article_hash raw_response : String) (rows : Table) : Table :=
  upsertRow today
    [today, raw_publish, sentiment, model_used, model_version, article_hash, raw_response]
    rows

/-- A stored sentiment record (the spec's `SentimentRecord`). -/
structure SentimentRecord where
  dateKey : String
  publishDateRaw : String
  label : String
  provider : String
  modelVersion : String
  contentHash : String
  rawResponse : String
deriving DecidableEq, Repr

/-- The CSV row a record is written as. -/
def recordRow (r : SentimentRecord) : Row :=
  [r.dateKey, r.publishDateRaw, r.label, r.provider, r.modelVersion,
   r.contentHash, r.rawResponse]

/-- `write_log_csv` applied to one record. -/
def upsertRecord (r : SentimentRecord) (rows : Table) : Table :=
  write_log_csv r.dateKey r.publishDateRaw r.label r.provider r.modelVersion
    r.contentHash r.rawResponse rows

/-- A sequence of `write_log_csv` calls, first record first. -/
def applyUpserts (recs : List SentimentRecord) (rows : Table) : Table :=
  recs.foldl (fun t r => upsertRecord r t) rows

/-- The first cell of every row, in order: the match keys `write_log_csv`
scans (`none` for an empty row, which never matches). -/
def keyList (rows : Table) : List (Option String) :=
  rows.map (fun row => row.head?)

/-- How many rows of the table carry the date key `k` in their first cell. -/
def keyCount (k : String) (rows : Table) : Nat :=
  (keyList rows).count (some k)

/-- Whether a string has the canonical `YYYY-MM-DD` shape of a `dateKey`
(the glossary's canonical identity for one sentiment record). -/
def isDateKey (s : String) : Bool :=
  match s.toList with
  | [y1, y2, y3, y4, h1, m1, m2, h2, d1, d2] =>
    y1.isDigit && y2.isDigit && y3.isDigit && y4.isDigit &&
    h1 = '-' && h2 = '-' && m1.isDigit && m2.isDigit && d1.isDigit && d2.isDigit
  | _ => false

/-! ## Date extraction (`extract_publish_datetime`)

The Python function works on `BeautifulSoup(html)`; the parsed page is
modelled by its observable pieces: the document's text nodes in order
(`soup.find(string=re.compile("Published as of:"))` returns the first node
containing the marker) and the `<p>` texts in order (for
`extract_article_text`). -/

/-- A fetched page, as BeautifulSoup exposes it to the script. -/
structure Markup where
  textNodes : List String
  paragraphTexts : List String
deriving DecidableEq, Repr

/-- Drop `pat` from the front of `cs`: `some` of the remainder when `pat`
is a leading segment of `cs`, else `none`. -/
def stripLead : List Char → List Char → Option (List Char)
  | [], cs => some cs
  | _ :: _, [] => none
  | p :: ps, c :: cs => if p = c then stripLead ps cs else none

/-- Whether `needle` occurs as a contiguous segment of `cs`. -/
def containsSub (needle : List Char) : List Char → Bool
  | [] => (stripLead needle []).isSome
  | c :: cs => (stripLead needle (c :: cs)).isSome || containsSub needle cs

/-- The marker regex `re.compile("Published as of:")` used to find the node. -/
def markerChars : List Char := "Published as of:".toList

/-- The literal head `"Published as of: "` both search patterns start with. -/
def markerSp : List Char := "Published as of: ".toList

/-- Match of `([A-Za-z]+ \d{1,2}, \d{4})` at the start of `cs`, returning
the captured characters. A digit run of three or more fails the `\d{1,2}`
piece even after backtracking, because the character after the taken digits
must be the literal comma. -/
def matchDateAt (cs : List Char) : Option (List Char) :=
  let letters := cs.takeWhile Char.isAlpha
  if letters.length = 0 then none
  else
    match cs.drop letters.length with
    | ' ' :: rest =>
      let ds := rest.takeWhile Char.isDigit
      if ds.length = 0 ∨ 3 ≤ ds.length then none
      else
        match rest.drop ds.length with
        | ',' :: ' ' :: rest2 =>
          let ys := rest2.takeWhile Char.isDigit
          if 4 ≤ ys.length then
            some (letters ++ [' '] ++ ds ++ [','] ++ [' '] ++ ys.take 4)
          else none
        | _ => none
    | _ => none

/-- Python `re.search(r"Published as of: ([A-Za-z]+ \d{1,2}, \d{4})", s)`:
scan left to right for the first position where the whole pattern matches,
returning group 1. -/
def searchShortDate : List Char → Option (List Char)
  | [] => none
  | c :: cs =>
    match stripLead markerSp (c :: cs) with
    | some after =>
      match matchDateAt after with
      | some g => some g
      | none => searchShortDate cs
    | none => searchShortDate cs

/-- Python `re.search(r"Published as of: (.+)", s)`: at the first position
where the literal matches and at least one non-newline character follows,
group 1 is the greedy run of non-newline characters. -/
def searchFullDate : List Char → Option (List Char)
  | [] => none
  | c :: cs =>
    match stripLead markerSp (c :: cs) with
    | some after =>
      let g := after.takeWhile (fun ch => ch ≠ '\n')
      if g.length = 0 then searchFullDate cs else some g
    | none => searchFullDate cs

/-- Month number of a full English month name, case-insensitively, as
`strptime`'s `%B` recognizes it. -/
def monthNumber (s : String) : Option Nat :=
  match pyLower s with
  | "january" => some 1
  | "february" => some 2
  | "march" => some 3
  | "april" => some 4
  | "may" => some 5
  | "june" => some 6
  | "july" => some 7
  | "august" => some 8
  | "september" => some 9
  | "october" => some 10
  | "november" => some 11
  | "december" => some 12
  | _ => none

/-- Gregorian leap-year rule, as `datetime` validates days. -/
def isLeapYear (y : Nat) : Bool :=
  (y % 4 = 0 && y % 100 ≠ 0) || y % 400 = 0

/-- Days in month `m` of year `y`. -/
def daysInMonth (y m : Nat) : Nat :=
  if m = 2 then (if isLeapYear y then 29 else 28)
  else if m = 4 ∨ m = 6 ∨ m = 9 ∨ m = 11 then 30
  else 31

/-- Numeric value of a digit string. -/
def digitsToNat (cs : List Char) : Nat :=
  cs.foldl (fun n c => 10 * n + (c.toNat - '0'.toNat)) 0

/-- Python `datetime.strptime(s, "%B %d, %Y")`, specialized to the strings
`searchShortDate` can produce (month-name letters, a space, one or two day
digits, a comma and space, then digits): `some (year, month, day)` on
success, `none` for the `ValueError` strptime raises when the month name is
unknown, data remains unconsumed, the day is out of range for the month, or
the year is zero. -/
def strptimeBDY (s : String) : Option (Nat × Nat × Nat) :=
  let cs := s.toList
  let letters := cs.takeWhile Char.isAlpha
  match monthNumber (String.mk letters) with
  | none => none
  | some m =>
    match cs.drop letters.length with
    | ' ' :: rest =>
      let ds := rest.takeWhile Char.isDigit
      if ds.length = 0 ∨ 3 ≤ ds.length then none
      else
        match rest.drop ds.length with
        | ',' :: ' ' :: rest2 =>
          if rest2.length = 4 ∧ rest2.all Char.isDigit then
            let y := digitsToNat rest2
            let d := digitsToNat ds
            if 1 ≤ y ∧ 1 ≤ d ∧ d ≤ daysInMonth y m then some (y, m, d) else none
          else none
        | _ => none
    | _ => none

/-- A natural number as at least two digits, zero-padded. -/
def pad2 (n : Nat) : String :=
  if n < 10 then "0" ++ toString n else toString n

/-- A natural number as at least four digits, zero-padded. -/
def pad4 (n : Nat) : String :=
  if n < 10 then "000" ++ toString n
  else if n < 100 then "00" ++ toString n
  else if n < 1000 then "0" ++ toString n
  else toString n

/-- Python `dt.strftime("%Y-%m-%d")`. -/
def formatYMD (y m d : Nat) : String :=
  pad4 y ++ "-" ++ pad2 m ++ "-" ++ pad2 d

/-- Python `extract_publish_datetime(html)`: `some (dateKey, rawDateString)`
on success, `none` for the `ValueError("Could not extract publish date from
article.")` the function raises when the marker node is absent, either
regex fails to match, or strptime fails. -/
def extract_publish_datetime (page : Markup) : Option (String × String) :=
  match page.textNodes.find? (fun s => containsSub markerChars s.toList) with
  | none => none
  | some node =>
    match searchShortDate node.toList, searchFullDate node.toList with
    | some shortG, some fullG =>
      match strptimeBDY (pyStrip (String.mk shortG)) with
      | some (y, m, d) => some (formatYMD y m d, String.mk fullG)
      | none => none
    | _, _ => none

/-- Python `extract_article_text(html)`: the page's paragraph texts whose
strip is non-empty, joined with newlines. -/
def extract_article_text (page : Markup) : String :=
  String.intercalate "\n" (page.paragraphTexts.filter (fun p => pyStrip p ≠ ""))

/-! ## Classifier call (`get_sentiment`) -/

/-- The outcome of the one provider API call a run makes: the returned
message text, or the call raising. -/
inductive ProviderCall where
  | ok (text : String)
  | failed
deriving DecidableEq, Repr

/-- Python `get_sentiment(article)` with the provider response supplied by
`call`: `some (stripped text, model version)` when the call returns, `none`
when the provider call raises (there is no try/except around it). The
article argument only feeds the prompt sent to the provider, so the reply
is abstracted by `call` alone. -/
def get_sentiment (useModel : String) (_article : String) (call : ProviderCall) :
    Option (String × String) :=
  if useModel = "openai" then
    match call with
    | .ok t => some (pyStrip t, "gpt-4")
    | .failed => none
  else if useModel = "anthropic" then
    match call with
    | .ok t => some (pyStrip t, "claude-3-7-sonnet-20250219")
    | .failed => none
  else some ("Undetermined", "unknown")

/-! ## Notifier (`send_push_notification`) -/

/-- What the notifier did. -/
inductive NotifyResult where
  | skipped
  | sent
  | failedLogged
deriving DecidableEq, Repr

/-- Python truthiness test `not value` for an optional env string: true for
an unset variable or the empty string. -/
def optFalsy : Option String → Bool
  | none => true
  | some s => s = ""

/-- The outcome of the one `requests.post` call the notifier may make:
either a response with its HTTP status code, or the call raising (a
transport-level failure such as a connection error or timeout). -/
inductive PostResult where
  | ok (status : Nat)
  | raised
deriving DecidableEq, Repr

/-- Python `send_push_notification(message)`: missing credentials skip with
a warning and no POST; otherwise one POST is attempted and a response with
a non-200 status is logged as a warning. There is no try/except around
`requests.post`, so when the call raises, the exception propagates out of
the function: the first component is `none` in that case and `some` of what
was logged when the function returns normally. The second component counts
the POST attempts made. -/
def send_push_notification (userKey apiToken : Option String) (post : PostResult) :
    Option NotifyResult × Nat :=
  if optFalsy userKey ∨ optFalsy apiToken then (some .skipped, 0)
  else
    match post with
    | .ok status => if status ≠ 200 then (some .failedLogged, 1) else (some .sent, 1)
    | .raised => (none, 1)

/-! ## The run (`main`)

`main(retry=False)` fetches, extracts, gates on the publish date and either
classifies and stores, or sleeps and re-invokes itself once with
`retry=True`. One invocation of the script therefore makes at most two
fetch→extract passes; the two passes' external inputs are supplied as
`Env.first` and `Env.second`. -/

/-- One fetch→extract pass's external inputs: the fetched page and the
value of `datetime.now().strftime("%Y-%m-%d")` during the pass. -/
structure AttemptEnv where
  page : Markup
  today : String
deriving DecidableEq, Repr

/-- External inputs of one script invocation. -/
structure Env where
  first : AttemptEnv
  second : AttemptEnv
  useModel : String
  call : ProviderCall
  hashFn : String → String
  pushUser : Option String
  pushToken : Option String
  post : PostResult

/-- How an invocation of `main` ends. -/
inductive Outcome where
  | abortedExtract
  | abortedStale
  | completed (sentiment : String)
  | crashed
deriving DecidableEq, Repr

/-- Everything observable about one invocation: its terminal outcome, the
CSV table after it, how many times it fetched, the `time.sleep` durations
in order, how many provider calls it made, and the notifier's report when
the notification step ran. -/
structure RunResult where
  outcome : Outcome
  table : Table
  fetchCount : Nat
  sleeps : List Nat
  classifierCalls : Nat
  notify : Option (NotifyResult × Nat)
deriving DecidableEq, Repr

/-- The `time.sleep(300)` before the staleness retry. -/
def staleRetryDelaySeconds : Nat := 300

/-- The `time.sleep(10)` before the extraction-failure retry. -/
def extractRetryDelaySeconds : Nat := 10

/-- The tail of `main` past the staleness gate: classify, normalize, hash,
upsert, notify. `crashed` models the exceptions `main` does not catch:
the provider call raising inside `get_sentiment`, the `IndexError`
`clean_sentiment` raises on an empty response, and `requests.post` raising
inside `send_push_notification`. The CSV write happens before the
notification, so in the last case the record survives the crash. -/
def finishRun (env : Env) (att : AttemptEnv) (rawPublish : String) (table : Table) :
    Outcome × Table × Option (NotifyResult × Nat) :=
  let article := extract_article_text att.page
  match get_sentiment env.useModel article env.call with
  | none => (.crashed, table, none)
  | some (sentimentRaw, modelVersion) =>
    match clean_sentiment sentimentRaw with
    | none => (.crashed, table, none)
    | some sentiment =>
      let articleHash := env.hashFn article
      let table2 := write_log_csv att.today rawPublish sentiment env.useModel
        modelVersion articleHash sentimentRaw table
      match send_push_notification env.pushUser env.pushToken env.post with
      | (some nr, k) => (.completed sentiment, table2, some (nr, k))
      | (none, _) => (.crashed, table2, none)

/-- What one `main(retry=...)` body does before any re-invocation. -/
inductive GateStep where
  | finished (o : Outcome) (t : Table) (calls : Nat) (n : Option (NotifyResult × Nat))
  | retryAfterExtractFailure
  | retryAfterStale
deriving Repr

/-- One body of `main`: fetch (the pass's page), extract the publish date,
gate it against the pass's current date, and either finish or signal the
retry re-invocation (only possible when `isRetry = false`). -/
def runAttempt (env : Env) (att : AttemptEnv) (isRetry : Bool) (table : Table) :
    GateStep :=
  match extract_publish_datetime att.page with
  | none =>
    if isRetry then .finished .abortedExtract table 0 none
    else .retryAfterExtractFailure
  | some (publishDate, rawPublish) =>
    if att.today ≠ publishDate then
      if isRetry then .finished .abortedStale table 0 none
      else .retryAfterStale
    else
      match finishRun env att rawPublish table with
      | (o, t, n) => .finished o t 1 n

/-- The `main(retry=True)` re-invocation, entered after sleeping
`sleepSecs`. With `isRetry = true` the body always finishes, so the
fall-through arm is dead code kept only to make the match total. -/
def runRetry (env : Env) (table : Table) (sleepSecs : Nat) : RunResult :=
  match runAttempt env env.second true table with
  | .finished o t c n => ⟨o, t, 2, [sleepSecs], c, n⟩
  | _ => ⟨.crashed, table, 2, [sleepSecs], 0, none⟩

/-- Python `main()`: the first pass, with the bounded `retry=True`
re-invocation on extraction failure (after 10 s) or staleness (after 300 s). -/
def mainRun (env : Env) (table : Table) : RunResult :=
  match runAttempt env env.first false table with
  | .finished o t c n => ⟨o, t, 1, [], c, n⟩
  | .retryAfterExtractFailure => runRetry env table extractRetryDelaySeconds
  | .retryAfterStale => runRetry env table staleRetryDelaySeconds

/-- The rows below the header: the table's data rows. -/
def dataRows (rows : Table) : Table := rows.tail

/-! ## Concrete instances used by test-vector theorems and witnesses -/

/-- The spec's example marker line, as the page's one text node. -/
def demoPage : Markup :=
  ⟨["Published as of: April 17, 2025, 9:15 a.m. ET"], ["Some body text."]⟩

/-- A page whose marker is present but followed by no parseable date. -/
def demoBadPage : Markup :=
  ⟨["Published as of: soon"], ["Some body text."]⟩

/-- A full environment for a fresh-article run. -/
def demoFreshEnv : Env :=
  { first := ⟨demoPage, "2025-04-17"⟩, second := ⟨demoPage, "2025-04-17"⟩,
    useModel := "openai", call := .ok "Bullish. Strong earnings...",
    hashFn := fun _ => "d41d8cd98f00b204e9800998ecf8427e",
    pushUser := some "user", pushToken := some "token", post := .ok 200 }

/-- The same run observed a day later: the publish date is stale on both passes. -/
def demoStaleEnv : Env :=
  { demoFreshEnv with
    first := ⟨demoPage, "2025-04-18"⟩, second := ⟨demoPage, "2025-04-18"⟩ }

/-- A run whose page never yields a parseable publish date. -/
def demoBadExtractEnv : Env :=
  { demoFreshEnv with
    first := ⟨demoBadPage, "2025-04-17"⟩, second := ⟨demoBadPage, "2025-04-17"⟩ }

/-- A fresh-article run whose provider call raises. -/
def demoClassifierFailEnv : Env :=
  { demoFreshEnv with call := .failed }

/-- A fresh-article run whose notification POST raises a transport error. -/
def demoNotifyFailEnv : Env :=
  { demoFreshEnv with post := .raised }

/-- A sample record with date key `2025-04-17`. -/
def demoRec1 : SentimentRecord :=
  ⟨"2025-04-17", "April 17, 2025, 9:15 a.m. ET", "Bullish", "openai", "gpt-4",
   "hashA", "Bullish. Strong earnings..."⟩

/-- A sample record with date key `2025-04-18`. -/
def demoRec2 : SentimentRecord :=
  ⟨"2025-04-18", "April 18, 2025, 9:02 a.m. ET", "Bearish", "openai", "gpt-4",
   "hashB", "Bearish. Weak jobs data."⟩

/-- A starting table that already holds two rows with the same date key. -/
def dupStartTable : Table :=
  [csvHeader, ["2025-04-17", "a"], ["2025-04-17", "b"]]

/-! ## Lemmas about the store -/

/-- The table shape every table reachable from empty by valid upserts has:
empty, or the header followed by data rows with pairwise distinct keys. -/
def TableWF (rows : Table) : Prop :=
  rows = [] ∨ ∃ data, rows = csvHeader :: data ∧ (keyList data).Nodup

theorem keyList_nil : keyList [] = [] := rfl

theorem keyList_cons (row : Row) (rows : Table) :
    keyList (row :: rows) = row.head? :: keyList rows := rfl

theorem keyList_append (r1 r2 : Table) :
    keyList (r1 ++ r2) = keyList r1 ++ keyList r2 := by
  simp [keyList]

theorem csvHeader_head : csvHeader.head? = some "today_date" := rfl

theorem isDateKey_ne_today_date {k : String} (h : isDateKey k = true) :
    k ≠ "today_date" := by
  intro hk
  subst hk
  exact absurd h (by decide)

theorem replaceFirstRow_eq_none {t : String} {lr : Row} {rows : Table} :
    replaceFirstRow t lr rows = none ↔ ∀ row ∈ rows, ¬(row.head? = some t) := by
  induction rows with
  | nil => simp [replaceFirstRow]
  | cons row rest ih =>
    by_cases h : row.head? = some t
    · simp [replaceFirstRow, h]
    · simp [replaceFirstRow, h, Option.map_eq_none', ih]

theorem replaceFirstRow_keyList {t : String} {lr : Row} {rows rows' : Table}
    (hlr : lr.head? = some t) (h : replaceFirstRow t lr rows = some rows') :
    keyList rows' = keyList rows := by
  induction rows generalizing rows' with
  | nil => simp [replaceFirstRow] at h
  | cons row rest ih =>
    by_cases hm : row.head? = some t
    · simp only [replaceFirstRow, if_pos hm, Option.some.injEq] at h
      subst h
      rw [keyList_cons, keyList_cons, hlr, hm]
    · simp only [replaceFirstRow, if_neg hm, Option.map_eq_some'] at h
      obtain ⟨rs, hrs, hrows'⟩ := h
      subst hrows'
      rw [keyList_cons, keyList_cons, ih hrs]

theorem replaceFirstRow_isSome_mem {t : String} {lr : Row} {rows rows' : Table}
    (h : replaceFirstRow t lr rows = some rows') : some t ∈ keyList rows := by
  induction rows generalizing rows' with
  | nil => simp [replaceFirstRow] at h
  | cons row rest ih =>
    by_cases hm : row.head? = some t
    · rw [keyList_cons, hm]
      exact List.mem_cons_self _ _
    · simp only [replaceFirstRow, if_neg hm, Option.map_eq_some'] at h
      obtain ⟨rs, hrs, _⟩ := h
      rw [keyList_cons]
      exact List.mem_cons_of_mem _ (ih hrs)

theorem replaceFirstRow_again {t : String} {lr : Row} {rows rows' : Table}
    (hlr : lr.head? = some t) (h : replaceFirstRow t lr rows = some rows') :
    replaceFirstRow t lr rows' = some rows' := by
  induction rows generalizing rows' with
  | nil => simp [replaceFirstRow] at h
  | cons row rest ih =>
    by_cases hm : row.head? = some t
    · simp only [replaceFirstRow, if_pos hm, Option.some.injEq] at h
      subst h
      simp [replaceFirstRow, hlr]
    · simp only [replaceFirstRow, if_neg hm, Option.map_eq_some'] at h
      obtain ⟨rs, hrs, hrows'⟩ := h
      subst hrows'
      simp [replaceFirstRow, hm, ih hrs]

theorem replaceFirstRow_append_self {t : String} {lr : Row} {rows : Table}
    (hlr : lr.head? = some t) (h : replaceFirstRow t lr rows = none) :
    replaceFirstRow t lr (rows ++ [lr]) = some (rows ++ [lr]) := by
  induction rows with
  | nil => simp [replaceFirstRow, hlr]
  | cons row rest ih =>
    by_cases hm : row.head? = some t
    · simp [replaceFirstRow, hm] at h
    · simp only [replaceFirstRow, if_neg hm, Option.map_eq_none'] at h
      simp [List.cons_append, replaceFirstRow, hm, ih h]

theorem upsertRow_of_replace {t : String} {lr : Row} {rows rows' : Table}
    (h : replaceFirstRow t lr rows = some rows') : upsertRow t lr rows = rows' := by
  simp [upsertRow, h]

theorem upsertRow_of_none {t : String} {lr : Row} {rows : Table}
    (h : replaceFirstRow t lr rows = none) (hne : rows ≠ []) :
    upsertRow t lr rows = rows ++ [lr] := by
  simp [upsertRow, h, hne]

theorem upsertRow_nil (t : String) (lr : Row) :
    upsertRow t lr [] = [csvHeader, lr] := by
  simp [upsertRow, replaceFirstRow]

theorem replaceFirstRow_header_cons {t : String} {lr : Row} {data : Table}
    (ht : t ≠ "today_date") :
    replaceFirstRow t lr (csvHeader :: data) =
      (replaceFirstRow t lr data).map (fun rs => csvHeader :: rs) := by
  have hh : ¬(csvHeader.head? = some t) := by
    rw [csvHeader_head]
    intro hcontra
    exact ht (Option.some.inj hcontra).symm
  simp [replaceFirstRow, hh]

theorem upsertRow_second_eq_first {t : String} {lr : Row} {rows : Table}
    (hlr : lr.head? = some t) (ht : t ≠ "today_date") :
    upsertRow t lr (upsertRow t lr rows) = upsertRow t lr rows := by
  cases h : replaceFirstRow t lr rows with
  | some u =>
    rw [upsertRow_of_replace h, upsertRow_of_replace (replaceFirstRow_again hlr h)]
  | none =>
    by_cases hnil : rows = []
    · subst hnil
      rw [upsertRow_nil]
      have hh : ¬(csvHeader.head? = some t) := by
        rw [csvHeader_head]
        intro hcontra
        exact ht (Option.some.inj hcontra).symm
      have h2 : replaceFirstRow t lr [csvHeader, lr] = some [csvHeader, lr] := by
        simp [replaceFirstRow, hh, hlr]
      rw [upsertRow_of_replace h2]
    · rw [upsertRow_of_none h hnil,
        upsertRow_of_replace (replaceFirstRow_append_self hlr h)]

theorem keyCount_eq_zero_of_none {t : String} {lr : Row} {rows : Table}
    (h : replaceFirstRow t lr rows = none) : keyCount t rows = 0 := by
  rw [keyCount, List.count_eq_zero]
  intro hmem
  obtain ⟨row, hrow, hhead⟩ := List.mem_map.mp hmem
  exact (replaceFirstRow_eq_none.mp h) row hrow hhead

theorem keyCount_upsertRow {t : String} {lr : Row} {rows : Table}
    (hlr : lr.head? = some t) (ht : t ≠ "today_date")
    (hc : keyCount t rows ≤ 1) : keyCount t (upsertRow t lr rows) = 1 := by
  cases h : replaceFirstRow t lr rows with
  | some u =>
    rw [upsertRow_of_replace h]
    have hk := replaceFirstRow_keyList hlr h
    have hmem := replaceFirstRow_isSome_mem h
    rw [keyCount] at hc ⊢
    rw [hk]
    have h1 : 0 < (keyList rows).count (some t) := List.count_pos_iff.mpr hmem
    omega
  | none =>
    have h0 := keyCount_eq_zero_of_none h
    by_cases hnil : rows = []
    · subst hnil
      rw [upsertRow_nil, keyCount]
      have ht' : ("today_date" : String) ≠ t := fun hh => ht hh.symm
      simp [keyList, csvHeader_head, hlr, List.count_cons, ht']
    · rw [upsertRow_of_none h hnil, keyCount, keyList_append, List.count_append]
      rw [keyCount] at h0
      rw [h0]
      simp [keyList, hlr]

theorem upsertRow_WF {t : String} {lr : Row} {rows : Table}
    (hlr : lr.head? = some t) (ht : t ≠ "today_date")
    (hwf : TableWF rows) : TableWF (upsertRow t lr rows) := by
  rcases hwf with hnil | ⟨data, rfl, hnd⟩
  · subst hnil
    rw [upsertRow_nil]
    exact Or.inr ⟨[lr], rfl, by simp [keyList]⟩
  · cases h : replaceFirstRow t lr data with
    | some data' =>
      have hfull : replaceFirstRow t lr (csvHeader :: data) = some (csvHeader :: data') := by
        rw [replaceFirstRow_header_cons ht, h]
        rfl
      rw [upsertRow_of_replace hfull]
      exact Or.inr ⟨data', rfl, (replaceFirstRow_keyList hlr h) ▸ hnd⟩
    | none =>
      have hfull : replaceFirstRow t lr (csvHeader :: data) = none := by
        rw [replaceFirstRow_header_cons ht, h]
        rfl
      rw [upsertRow_of_none hfull (by simp)]
      refine Or.inr ⟨data ++ [lr], by simp, ?_⟩
      rw [keyList_append]
      have hnotmem : some t ∉ keyList data := by
        intro hmem
        obtain ⟨row, hrow, hhead⟩ := List.mem_map.mp hmem
        exact (replaceFirstRow_eq_none.mp h) row hrow hhead
      have hkl : keyList [lr] = [some t] := by simp [keyList, hlr]
      rw [hkl, List.nodup_append]
      refine ⟨hnd, List.nodup_singleton _, fun a ha hmem => ?_⟩
      rw [List.mem_singleton] at hmem
      exact hnotmem (hmem ▸ ha)

theorem applyUpserts_nil (rows : Table) : applyUpserts [] rows = rows := rfl

theorem applyUpserts_cons (r : SentimentRecord) (recs : List SentimentRecord)
    (rows : Table) :
    applyUpserts (r :: recs) rows = applyUpserts recs (upsertRecord r rows) := rfl

theorem upsertRecord_eq_upsertRow (r : SentimentRecord) (rows : Table) :
    upsertRecord r rows = upsertRow r.dateKey (recordRow r) rows := rfl

theorem recordRow_head (r : SentimentRecord) : (recordRow r).head? = some r.dateKey := rfl

theorem applyUpserts_WF {recs : List SentimentRecord} {rows : Table}
    (hv : ∀ r ∈ recs, isDateKey r.dateKey = true)
    (hwf : TableWF rows) : TableWF (applyUpserts recs rows) := by
  induction recs generalizing rows with
  | nil => exact hwf
  | cons r rs ih =>
    rw [applyUpserts_cons]
    refine ih (fun x hx => hv x (List.mem_cons_of_mem _ hx)) ?_
    rw [upsertRecord_eq_upsertRow]
    exact upsertRow_WF (recordRow_head r)
      (isDateKey_ne_today_date (hv r (List.mem_cons_self _ _))) hwf

theorem applyUpserts_fresh {recs : List SentimentRecord} {data : Table}
    (hv : ∀ r ∈ recs, isDateKey r.dateKey = true)
    (hnd : (recs.map SentimentRecord.dateKey).Nodup)
    (hfresh : ∀ r ∈ recs, some r.dateKey ∉ keyList data) :
    applyUpserts recs (csvHeader :: data) =
      csvHeader :: (data ++ recs.map recordRow) := by
  induction recs generalizing data with
  | nil => simp [applyUpserts_nil]
  | cons r rs ih =>
    rw [applyUpserts_cons]
    have hdk := hv r (List.mem_cons_self _ _)
    have ht := isDateKey_ne_today_date hdk
    have hnone_data : replaceFirstRow r.dateKey (recordRow r) data = none := by
      rw [replaceFirstRow_eq_none]
      intro row hrow hhead
      exact hfresh r (List.mem_cons_self _ _) (List.mem_map.mpr ⟨row, hrow, hhead⟩)
    have hnone : replaceFirstRow r.dateKey (recordRow r) (csvHeader :: data) = none := by
      rw [replaceFirstRow_header_cons ht, hnone_data]
      rfl
    have hstep : upsertRecord r (csvHeader :: data) = csvHeader :: (data ++ [recordRow r]) := by
      rw [upsertRecord_eq_upsertRow, upsertRow_of_none hnone (by simp)]
      simp
    rw [hstep]
    have hnd' := List.nodup_cons.mp hnd
    rw [ih (fun x hx => hv x (List.mem_cons_of_mem _ hx)) hnd'.2 ?_]
    · simp
    · intro r' hr' hmem
      rw [keyList_append] at hmem
      rcases List.mem_append.mp hmem with hin | hin
      · exact hfresh r' (List.mem_cons_of_mem _ hr') hin
      · have : some r'.dateKey = some r.dateKey := by
          simpa [keyList, recordRow_head] using hin
        have heq : r'.dateKey = r.dateKey := Option.some.inj this
        exact hnd'.1 (heq ▸ List.mem_map.mpr ⟨r', hr', rfl⟩)

/-! ## Claim theorems -/

/-- C1: starting from an empty table, any sequence of `write_log_csv` calls
with well-formed date keys leaves at most one data row per date key (a
repeated key replaces its row instead of appending), and when all keys are
pairwise distinct the data rows carry exactly the keys in first-seen order. -/
theorem upsert_log_invariant (recs : List SentimentRecord)
    (hv : ∀ r ∈ recs, isDateKey r.dateKey = true) :
    (keyList (dataRows (applyUpserts recs []))).Nodup ∧
    ((recs.map SentimentRecord.dateKey).Nodup →
      keyList (dataRows (applyUpserts recs [])) =
        recs.map (fun r => some r.dateKey)) := by
  constructor
  · have hwf := applyUpserts_WF hv (Or.inl rfl)
    rcases hwf with hnil | ⟨data, heq, hnd⟩
    · rw [hnil]
      simp [dataRows, keyList]
    · rw [heq]
      simpa [dataRows] using hnd
  · intro hnd
    cases recs with
    | nil => simp [applyUpserts_nil, dataRows, keyList]
    | cons r rs =>
      rw [applyUpserts_cons]
      have h1 : upsertRecord r [] = csvHeader :: [recordRow r] :=
        upsertRow_nil r.dateKey (recordRow r)
      rw [h1]
      rw [List.map_cons, List.nodup_cons] at hnd
      rw [applyUpserts_fresh (fun x hx => hv x (List.mem_cons_of_mem _ hx)) hnd.2 ?_]
      · simp only [dataRows, List.tail_cons, List.singleton_append]
        simp [keyList, recordRow]
      · intro r' hr' hmem
        have : some r'.dateKey = some r.dateKey := by
          simpa [keyList, recordRow_head] using hmem
        exact hnd.1 ((Option.some.inj this) ▸ List.mem_map.mpr ⟨r', hr', rfl⟩)

/-- Witness for C1 at a concrete two-record sequence with distinct keys. -/
theorem upsert_log_invariant_witness :
    (keyList (dataRows (applyUpserts [demoRec1, demoRec2] []))).Nodup ∧
    (([demoRec1, demoRec2].map SentimentRecord.dateKey).Nodup →
      keyList (dataRows (applyUpserts [demoRec1, demoRec2] [])) =
        [demoRec1, demoRec2].map (fun r => some r.dateKey)) :=
  upsert_log_invariant [demoRec1, demoRec2] (by decide)

/-- C2 counterexample: over a starting table that already holds two rows
with the date key `2025-04-17`, upserting the identical record twice does
not leave exactly one row for that key (only the first matching row is
replaced), so the claim's quantification over every starting table fails. -/
theorem upsert_twice_dup_table_not_single :
    ¬(keyCount "2025-04-17"
        (upsertRecord demoRec1 (upsertRecord demoRec1 dupStartTable)) = 1) := by
  decide

/-- C2 (amended): for a valid record and any starting table in which at
most one row carries the record's date key — in particular any table the
store itself built — the table after the second identical upsert equals the
table after the first (the state is a fixed point), and that table has
exactly one row for the date key. The fixed-point half holds for every
starting table. -/
theorem upsert_idempotent (r : SentimentRecord) (rows : Table)
    (hdk : isDateKey r.dateKey = true) :
    upsertRecord r (upsertRecord r rows) = upsertRecord r rows ∧
    (keyCount r.dateKey rows ≤ 1 →
      keyCount r.dateKey (upsertRecord r rows) = 1) := by
  have ht := isDateKey_ne_today_date hdk
  constructor
  · rw [upsertRecord_eq_upsertRow, upsertRecord_eq_upsertRow]
    exact upsertRow_second_eq_first (recordRow_head r) ht
  · intro hc
    rw [upsertRecord_eq_upsertRow]
    exact keyCount_upsertRow (recordRow_head r) ht hc

/-- Witness for C2's amended theorem at a concrete record and the empty table. -/
theorem upsert_idempotent_witness :
    upsertRecord demoRec1 (upsertRecord demoRec1 []) = upsertRecord demoRec1 [] ∧
    (keyCount demoRec1.dateKey [] ≤ 1 →
      keyCount demoRec1.dateKey (upsertRecord demoRec1 []) = 1) :=
  upsert_idempotent demoRec1 [] (by decide)

/-- C3: the normalizer's behaviour on the spec's four test vectors. The
first three agree with the spec, but on the empty string the code raises
`IndexError` (`raw.strip().split()[0]` subscripts an empty list), modelled
as `none`, instead of returning `"Undetermined"`: `clean_sentiment` is not
total over all string inputs. -/
theorem clean_sentiment_behaviour :
    clean_sentiment "Bullish. Strong earnings..." = some "Bullish" ∧
    clean_sentiment "BEARISH" = some "Bearish" ∧
    clean_sentiment "Not sure" = some "Undetermined" ∧
    clean_sentiment "" = none := by
  decide

/-! ## Lemmas about the run -/

theorem finishRun_completed_of_notify {env : Env} {att : AttemptEnv}
    {rp : String} {tb : Table} {o : Outcome} {t : Table}
    {n : Option (NotifyResult × Nat)}
    (h : finishRun env att rp tb = (o, t, n)) (hn : n.isSome) :
    ∃ s, o = Outcome.completed s := by
  unfold finishRun at h
  cases hg : get_sentiment env.useModel (extract_article_text att.page) env.call with
  | none =>
    simp only [hg, Prod.mk.injEq] at h
    rw [← h.2.2] at hn
    simp at hn
  | some pr =>
    obtain ⟨sraw, mv⟩ := pr
    simp only [hg] at h
    cases hcl : clean_sentiment sraw with
    | none =>
      simp only [hcl, Prod.mk.injEq] at h
      rw [← h.2.2] at hn
      simp at hn
    | some s =>
      simp only [hcl] at h
      rcases hsend : send_push_notification env.pushUser env.pushToken env.post
        with ⟨onr, k⟩
      cases onr with
      | none =>
        simp only [hsend, Prod.mk.injEq] at h
        rw [← h.2.2] at hn
        simp at hn
      | some nr =>
        simp only [hsend, Prod.mk.injEq] at h
        exact ⟨s, h.1.symm⟩

theorem runAttempt_finished_completed {env : Env} {att : AttemptEnv}
    {isRetry : Bool} {tb : Table} {o : Outcome} {t : Table} {c : Nat}
    {n : Option (NotifyResult × Nat)}
    (h : runAttempt env att isRetry tb = .finished o t c n) (hn : n.isSome) :
    ∃ s, o = Outcome.completed s := by
  unfold runAttempt at h
  cases he : extract_publish_datetime att.page with
  | none =>
    cases isRetry with
    | true =>
      simp only [he, if_true, GateStep.finished.injEq] at h
      rw [← h.2.2.2] at hn
      simp at hn
    | false => simp [he] at h
  | some pr =>
    obtain ⟨pd, rp⟩ := pr
    simp only [he] at h
    by_cases hs : att.today ≠ pd
    · rw [if_pos hs] at h
      cases isRetry with
      | true =>
        simp only [if_true, GateStep.finished.injEq] at h
        rw [← h.2.2.2] at hn
        simp at hn
      | false => simp at h
    · rw [if_neg hs] at h
      rcases hfr : finishRun env att rp tb with ⟨o', t', n'⟩
      rw [hfr] at h
      simp only [GateStep.finished.injEq] at h
      exact h.1 ▸ (finishRun_completed_of_notify hfr (h.2.2.2 ▸ hn))

/-! ## Claim theorems about the run -/

/-- C4: when the extracted publish date key differs from the current date
on both the first and the retry pass, the run classifies nothing, writes
nothing, sleeps once, and ends in the informational `abortedStale` outcome
(a normal return, not an exception). -/
theorem stale_both_attempts_aborts (env : Env) (table : Table)
    (d1 r1 d2 r2 : String)
    (h1 : extract_publish_datetime env.first.page = some (d1, r1))
    (h1s : env.first.today ≠ d1)
    (h2 : extract_publish_datetime env.second.page = some (d2, r2))
    (h2s : env.second.today ≠ d2) :
    mainRun env table =
      ⟨.abortedStale, table, 2, [staleRetryDelaySeconds], 0, none⟩ := by
  have ha1 : runAttempt env env.first false table = .retryAfterStale := by
    simp [runAttempt, h1, h1s]
  have ha2 : runAttempt env env.second true table =
      .finished .abortedStale table 0 none := by
    simp [runAttempt, h2, h2s]
  simp [mainRun, ha1, runRetry, ha2]

/-- Witness for C4: the demo page published 2025-04-17, observed on 2025-04-18. -/
theorem stale_both_attempts_aborts_witness :
    mainRun demoStaleEnv [] =
      ⟨.abortedStale, [], 2, [staleRetryDelaySeconds], 0, none⟩ :=
  stale_both_attempts_aborts demoStaleEnv []
    "2025-04-17" "April 17, 2025, 9:15 a.m. ET"
    "2025-04-17" "April 17, 2025, 9:15 a.m. ET"
    (by decide) (by decide) (by decide) (by decide)

/-- C5: when the extracted date key equals the pass's current date the run
proceeds straight to the classifier call with no sleep and no second fetch;
when it differs on the first pass the run sleeps exactly the fixed
300-second delay (within the spec's 60–300 s range) and re-runs the
fetch→extract pipeline exactly once. -/
theorem staleness_gate_retry (env : Env) (table : Table) (d r : String)
    (h : extract_publish_datetime env.first.page = some (d, r)) :
    (env.first.today = d →
      (mainRun env table).sleeps = [] ∧
      (mainRun env table).fetchCount = 1 ∧
      (mainRun env table).classifierCalls = 1) ∧
    (env.first.today ≠ d →
      (mainRun env table).sleeps = [staleRetryDelaySeconds] ∧
      (mainRun env table).fetchCount = 2 ∧
      60 ≤ staleRetryDelaySeconds ∧ staleRetryDelaySeconds ≤ 300) := by
  constructor
  · intro heq
    rcases hfr : finishRun env env.first r table with ⟨o, t, n⟩
    have ha1 : runAttempt env env.first false table = .finished o t 1 n := by
      simp [runAttempt, h, heq, hfr]
    simp [mainRun, ha1]
  · intro hne
    have ha1 : runAttempt env env.first false table = .retryAfterStale := by
      simp [runAttempt, h, hne]
    cases h2 : runAttempt env env.second true table <;>
      simp [mainRun, ha1, runRetry, h2, staleRetryDelaySeconds]

/-- Witness for C5: the demo page published 2025-04-17, observed the same day. -/
theorem staleness_gate_retry_witness :
    (demoFreshEnv.first.today = "2025-04-17" →
      (mainRun demoFreshEnv []).sleeps = [] ∧
      (mainRun demoFreshEnv []).fetchCount = 1 ∧
      (mainRun demoFreshEnv []).classifierCalls = 1) ∧
    (demoFreshEnv.first.today ≠ "2025-04-17" →
      (mainRun demoFreshEnv []).sleeps = [staleRetryDelaySeconds] ∧
      (mainRun demoFreshEnv []).fetchCount = 2 ∧
      60 ≤ staleRetryDelaySeconds ∧ staleRetryDelaySeconds ≤ 300) :=
  staleness_gate_retry demoFreshEnv [] "2025-04-17"
    "April 17, 2025, 9:15 a.m. ET" (by decide)

/-- C6: when date extraction raises on both passes the run takes the same
bounded retry path (one 10-second sleep, one refetch) and then aborts with
no record written; and every date key extraction does return comes from a
successfully strptime-parsed date found after the marker in a text node of
the page — extraction never substitutes the current date or any other
default. -/
theorem extraction_failure_aborts (env : Env) (table : Table)
    (h1 : extract_publish_datetime env.first.page = none)
    (h2 : extract_publish_datetime env.second.page = none) :
    mainRun env table =
      ⟨.abortedExtract, table, 2, [extractRetryDelaySeconds], 0, none⟩ ∧
    ∀ (page : Markup) (dk raw : String),
      extract_publish_datetime page = some (dk, raw) →
      ∃ node ∈ page.textNodes, ∃ g y m d,
        searchShortDate node.toList = some g ∧
        strptimeBDY (pyStrip (String.mk g)) = some (y, m, d) ∧
        dk = formatYMD y m d := by
  constructor
  · have ha1 : runAttempt env env.first false table = .retryAfterExtractFailure := by
      simp [runAttempt, h1]
    have ha2 : runAttempt env env.second true table =
        .finished .abortedExtract table 0 none := by
      simp [runAttempt, h2]
    simp [mainRun, ha1, runRetry, ha2]
  · intro page dk raw h
    unfold extract_publish_datetime at h
    cases hf : page.textNodes.find? (fun s => containsSub markerChars s.toList) with
    | none =>
      simp only [hf] at h
      exact Option.noConfusion h
    | some node =>
      simp only [hf] at h
      refine ⟨node, List.mem_of_find?_eq_some hf, ?_⟩
      cases hs : searchShortDate node.toList with
      | none =>
        simp only [hs] at h
        exact Option.noConfusion h
      | some g =>
        cases hfull : searchFullDate node.toList with
        | none =>
          simp only [hs, hfull] at h
          exact Option.noConfusion h
        | some fg =>
          cases hp : strptimeBDY (pyStrip (String.mk g)) with
          | none =>
            simp only [hs, hfull, hp] at h
            exact Option.noConfusion h
          | some ymd =>
            obtain ⟨y, m, d⟩ := ymd
            simp only [hs, hfull, hp, Option.some.injEq, Prod.mk.injEq] at h
            exact ⟨g, y, m, d, rfl, hp, h.1.symm⟩

/-- Witness for C6: both passes fetch the page whose marker is followed by
no parseable date. -/
theorem extraction_failure_aborts_witness :
    mainRun demoBadExtractEnv [] =
      ⟨.abortedExtract, [], 2, [extractRetryDelaySeconds], 0, none⟩ ∧
    ∀ (page : Markup) (dk raw : String),
      extract_publish_datetime page = some (dk, raw) →
      ∃ node ∈ page.textNodes, ∃ g y m d,
        searchShortDate node.toList = some g ∧
        strptimeBDY (pyStrip (String.mk g)) = some (y, m, d) ∧
        dk = formatYMD y m d :=
  extraction_failure_aborts demoBadExtractEnv [] (by decide) (by decide)

/-- C7: the code does not catch a classifier-provider failure. When the
run passes the staleness gate and the provider call raises, the exception
propagates out of `get_sentiment` uncaught: the run crashes and no record
(with label `Undetermined` or otherwise) is written — contradicting the
spec's requirement that `ClassifierError` be caught and mapped to an
`Undetermined` record. -/
theorem classifier_failure_crashes (env : Env) (table : Table) (d r : String)
    (h : extract_publish_datetime env.first.page = some (d, r))
    (heq : env.first.today = d)
    (hm : env.useModel = "openai" ∨ env.useModel = "anthropic")
    (hc : env.call = .failed) :
    (mainRun env table).outcome = .crashed ∧
    (mainRun env table).table = table := by
  have hgs : get_sentiment env.useModel (extract_article_text env.first.page)
      env.call = none := by
    rcases hm with hm | hm <;> simp [get_sentiment, hm, hc]
  have hfr : finishRun env env.first r table = (.crashed, table, none) := by
    simp [finishRun, hgs]
  have ha1 : runAttempt env env.first false table = .finished .crashed table 1 none := by
    simp [runAttempt, h, heq, hfr]
  simp [mainRun, ha1]

/-- Witness for C7: the fresh demo run with a failing provider call. -/
theorem classifier_failure_crashes_witness :
    (mainRun demoClassifierFailEnv []).outcome = .crashed ∧
    (mainRun demoClassifierFailEnv []).table = [] :=
  classifier_failure_crashes demoClassifierFailEnv []
    "2025-04-17" "April 17, 2025, 9:15 a.m. ET"
    (by decide) (by decide) (Or.inl (by decide)) (by decide)

/-- C9 (code behaviour): the credential and status-code paths are
best-effort as claimed — missing credentials skip the POST with only a
warning, a response with a non-200 status is only logged, and at most one
POST is ever attempted (never retried) — but there is no try/except around
`requests.post` itself: a transport-level failure raises out of
`send_push_notification`, and a run that has reached the notification step
then crashes, so the notification failure is fatal and unlogged,
contradicting the claim. The record, written before the notification,
survives the crash. -/
theorem notifier_transport_failure_fatal (u tok : Option String) (st : Nat)
    (post : PostResult) :
    (optFalsy u ∨ optFalsy tok →
      send_push_notification u tok post = (some .skipped, 0)) ∧
    (¬(optFalsy u ∨ optFalsy tok) →
      (st = 200 → send_push_notification u tok (.ok st) = (some .sent, 1)) ∧
      (st ≠ 200 → send_push_notification u tok (.ok st) = (some .failedLogged, 1)) ∧
      send_push_notification u tok .raised = (none, 1)) ∧
    (send_push_notification u tok post).2 ≤ 1 ∧
    (mainRun demoNotifyFailEnv []).outcome = .crashed ∧
    (mainRun demoNotifyFailEnv []).notify = none ∧
    keyCount "2025-04-17" (mainRun demoNotifyFailEnv []).table = 1 := by
  refine ⟨?_, ?_, ?_, ?_, ?_, ?_⟩
  · intro hf
    simp [send_push_notification, hf]
  · intro hf
    refine ⟨?_, ?_, ?_⟩
    · intro h200
      simp [send_push_notification, hf, h200]
    · intro h200
      simp [send_push_notification, hf, h200]
    · simp [send_push_notification, hf]
  · by_cases hf : optFalsy u ∨ optFalsy tok
    · simp [send_push_notification, hf]
    · cases post with
      | ok status =>
        by_cases h200 : status = 200 <;> simp [send_push_notification, hf, h200]
      | raised => simp [send_push_notification, hf]
  · decide
  · decide
  · decide

/-- C8: the spec's extraction test vector, with any further text nodes and
any paragraphs on the page: the marker line yields the date key 2025-04-17
and the full raw remainder of the line. -/
theorem extract_demo_vector (restNodes ps : List String) :
    extract_publish_datetime
        ⟨"Published as of: April 17, 2025, 9:15 a.m. ET" :: restNodes, ps⟩ =
      some ("2025-04-17", "April 17, 2025, 9:15 a.m. ET") := by
  unfold extract_publish_datetime
  rw [List.find?_cons_of_pos _ (by decide)]
  decide

/-- C10: every invocation makes at most two fetch→extract passes and at
most one sleep: the retry flag bounds the re-invocation on both the
extraction-failure path and the staleness path. -/
theorem main_bounded_fetches (env : Env) (tb : Table) :
    (mainRun env tb).fetchCount ≤ 2 ∧ (mainRun env tb).sleeps.length ≤ 1 := by
  cases h1 : runAttempt env env.first false tb with
  | finished o t c n => simp [mainRun, h1]
  | retryAfterExtractFailure =>
    cases h2 : runAttempt env env.second true tb <;>
      simp [mainRun, h1, runRetry, h2]
  | retryAfterStale =>
    cases h2 : runAttempt env env.second true tb <;>
      simp [mainRun, h1, runRetry, h2]

end MarketSentiment
